import Mathlib

/-!
# flogo `add` command: item installation and descriptor synchronisation

A shallow embedding of `installItem` and `ContainsTriggerConfig` from
`src/flogo/add.go`, with the files the command touches made explicit.

Modelling conventions.

* The trigger list of the engine config, `[]*TriggerConfig`, is a list of
  `Option TriggerConfig`: `none` is a `nil` pointer, which the JSON decoder
  produces for a `null` element of the array.  Reading `v.Name` through a
  `nil` pointer is a run-time panic; a function that can panic returns an
  `Option`, `none` being the panic.  The field itself is an `Option (List _)`,
  `none` being the `nil` slice the source tests for.
* The item lists of the project descriptor, `[]*ItemDescriptor`, are only
  appended to by `installItem`, never read through; they are lists of records,
  and the resolver returns a record.  `append` is `++ [x]`.
* A Go `map[string]string` is an association list with pairwise distinct keys
  (`GoMap`), assignment `m[k] = v` being `GoMap.set`.
* A file is what a JSON decoder makes of it: it cannot be opened, it opens but
  does not decode, or it decodes to a value (`File`).
* `os.Exit` ends the run: the rest of the function is not executed.  A run
  records the descriptor in memory, the disk, the sequence of effects and what
  was printed on standard error (`Run`).
-/

namespace Flogo

/-! ## Data model -/

/-- Modelled from the spec: the item type constant `itActivity`, declared outside `add.go`. -/
def itActivity : String := "activity"

/-- Modelled from the spec: the item type constant `itModel`, declared outside `add.go`. -/
def itModel : String := "model"

/-- Modelled from the spec: the item type constant `itTrigger`, declared outside `add.go`. -/
def itTrigger : String := "trigger"

/-- Modelled from the spec: the type `ItemDescriptor`, declared outside `add.go`.
`add.go` reads its `Name`; the rest of the record is metadata that `add.go` never inspects. -/
structure ItemDescriptor where
  Name : String
  Meta : String
deriving DecidableEq, Repr

/-- Modelled from the spec: the type `FlogoProjectDescriptor`, declared outside `add.go`;
the four fields are the ones `installItem` uses. -/
structure FlogoProjectDescriptor where
  Name : String
  Activities : List ItemDescriptor
  Models : List ItemDescriptor
  Triggers : List ItemDescriptor
deriving DecidableEq, Repr

/-- Modelled from the spec: the element type of `TriggerProjectDescriptor.Settings`, declared
outside `add.go`: a declared setting, of which `installItem` reads `Name` and `Value`. -/
structure ConfigValue where
  Name : String
  Value : String
deriving DecidableEq, Repr

/-- Modelled from the spec: the type `TriggerProjectDescriptor`, declared outside `add.go`:
the decoded `trigger.json`, an ordered sequence of declared settings. -/
structure TriggerProjectDescriptor where
  Settings : List ConfigValue
deriving DecidableEq, Repr

/-- A Go `map[string]string`: an association list whose keys are pairwise distinct. -/
abbrev GoMap := List (String × String)

/-- The Go expression `make(map[string]string)`. -/
def GoMap.empty : GoMap := []

/-- The Go assignment `m[k] = v`: overwrite the value of an existing key, else add the key. -/
def GoMap.set : GoMap → String → String → GoMap
  | [], k, v => [(k, v)]
  | (k', v') :: rest, k, v =>
    if k' = k then (k, v) :: rest else (k', v') :: GoMap.set rest k v

/-- The Go lookup `m[k]` with its presence flag. -/
def GoMap.get : GoMap → String → Option String
  | [], _ => none
  | (k', v') :: rest, k => if k' = k then some v' else GoMap.get rest k

/-- The record `TriggerConfig{Name, Settings}` built at line 133 of `add.go`. -/
structure TriggerConfig where
  Name : String
  Settings : GoMap
deriving DecidableEq, Repr

/-- Modelled from the spec: the type `EngineConfig`, declared outside `add.go`: a record with
the field `Triggers`.  `none` is the `nil` slice of a file that has no trigger list. -/
structure EngineConfig where
  Triggers : Option (List (Option TriggerConfig))
deriving DecidableEq, Repr

/-- The trigger list of an engine config, a missing list read as the empty one. -/
def EngineConfig.triggerList (c : EngineConfig) : List (Option TriggerConfig) :=
  c.Triggers.getD []

/-- The names of the entries of a trigger list, in order; a `nil` entry has none. -/
def entryNames : List (Option TriggerConfig) → List String
  | [] => []
  | none :: rest => entryNames rest
  | some v :: rest => v.Name :: entryNames rest

/-! ## Files and effects -/

/-- What opening and decoding a JSON file gives. -/
inductive File (α : Type) where
  /-- The call `os.Open` fails. -/
  | absent
  /-- The file opens, `Decode` fails. -/
  | corrupt
  /-- The file opens and decodes to `a`. -/
  | content (a : α)
deriving DecidableEq, Repr

/-- The files `installItem` works on: the project descriptor file, the engine config file
(`gb.NewBinFilePath(fileEngineConfig)`) and, by path, the config artifacts of the items, as they
are once the resolver has run. -/
structure Disk where
  descriptor : File FlogoProjectDescriptor
  engineConfig : File EngineConfig
  itemConfigs : String → File TriggerProjectDescriptor

/-- The calls of `installItem` that reach outside it, in the order they are made. -/
inductive Event where
  /-- The call `AddFlogoItem(gb, itemType, itemPath, items, addToSrc)`. -/
  | resolve (itemType itemPath : String) (items : List ItemDescriptor) (addToSrc : Bool)
  /-- The call `os.Open(itemConfigPath)`. -/
  | openItemConfig (itemConfigPath : String)
  /-- The call `os.Open(engineConfigPath)`. -/
  | openEngineConfig
  /-- The call `fgutil.WriteJSONtoFile(engineConfigPath, engineConfig)`. -/
  | writeEngineConfig (engineConfig : EngineConfig)
  /-- The call `updateProjectDescriptorFiles(gb, projectDescriptor)`. -/
  | saveDescriptor (projectDescriptor : FlogoProjectDescriptor)
deriving DecidableEq, Repr

/-- The failures of the item resolver named by the spec. -/
inductive ResolveFailure where
  | NotFound
  | DuplicateName
deriving DecidableEq, Repr

/-- How a run of `installItem` ends. -/
inductive Status where
  /-- The function ran to its last line and returned. -/
  | returned
  /-- The function called `os.Exit(code)`. -/
  | exited (code : Nat)
  /-- The call `AddFlogoItem` did not return. -/
  | resolverFailed (e : ResolveFailure)
  /-- The run stopped in a run-time panic (a `nil` pointer dereference). -/
  | panicked
deriving DecidableEq, Repr

/-- The state a run of `installItem` leaves behind. -/
structure Run where
  /-- The descriptor in memory (`*projectDescriptor`). -/
  descriptor : FlogoProjectDescriptor
  disk : Disk
  trace : List Event
  stderr : List String
  status : Status

/-- The item resolver `AddFlogoItem`, a collaborator of `installItem`: from the item type, the
item path, the current list of that type and the `addToSrc` flag it gives the descriptor of the
item and the path of the item's own config artifact, or it fails. -/
abbrev Resolver :=
  String → String → List ItemDescriptor → Bool → Except ResolveFailure (ItemDescriptor × String)

/-! ## The code of `add.go` -/

/-- The function `ContainsTriggerConfig` of `add.go`: scan the list from the front, answer
`true` at the first entry of that name, `false` when the list is exhausted.  Each entry is
read through its pointer (`v.Name`, line 157): at a `nil` entry the scan panics, which is
the result `none`. -/
def ContainsTriggerConfig : List (Option TriggerConfig) → String → Option Bool
  | [], _ => some false
  | none :: _, _ => none
  | some v :: rest, triggerName =>
    if v.Name = triggerName then some true else ContainsTriggerConfig rest triggerName

/-- The loop of lines 135-138 of `add.go`: assign every declared setting, in order, into the
settings map. -/
def copySettings : List ConfigValue → GoMap → GoMap
  | [], m => m
  | v :: rest, m => copySettings rest (m.set v.Name v.Value)

/-- Print `msg` on standard error and call `os.Exit(code)`. -/
def Run.exitWith (r : Run) (msg : String) (code : Nat) : Run :=
  { r with stderr := r.stderr ++ [msg], status := Status.exited code }

/-- Record a call in the trace. -/
def Run.log (r : Run) (e : Event) : Run :=
  { r with trace := r.trace ++ [e] }

/-- Modelled from the spec: the function `updateProjectDescriptorFiles`, defined outside
`add.go`: the save of the Project Descriptor Store, which persists the full descriptor. -/
def updateProjectDescriptorFiles (r : Run) : Run :=
  { r with
    disk := { r.disk with descriptor := File.content r.descriptor }
    trace := r.trace ++ [Event.saveDescriptor r.descriptor] }

/-- The call `fgutil.WriteJSONtoFile(engineConfigPath, engineConfig)`. -/
def writeEngineConfig (r : Run) (engineConfig : EngineConfig) : Run :=
  { r with
    disk := { r.disk with engineConfig := File.content engineConfig }
    trace := r.trace ++ [Event.writeEngineConfig engineConfig] }

/-- Lines 127-143 of `add.go`, once both files are decoded: a `nil` trigger list becomes the
empty one; when the scan answers that no entry has the item's name, a new entry with the
declared settings is appended and the engine config is written; when the scan panics the
run stops there. -/
def mergeTriggerConfig (r : Run) (itemConfig : ItemDescriptor)
    (triggerProjectDescriptor : TriggerProjectDescriptor) (engineConfig : EngineConfig) : Run :=
  let triggers : List (Option TriggerConfig) :=
    match engineConfig.Triggers with
    | none => []
    | some l => l
  match ContainsTriggerConfig triggers itemConfig.Name with
  | none => { r with status := Status.panicked }
  | some true => r
  | some false =>
    let triggerConfig : TriggerConfig :=
      { Name := itemConfig.Name
        Settings := copySettings triggerProjectDescriptor.Settings GoMap.empty }
    writeEngineConfig r { Triggers := some (triggers ++ [some triggerConfig]) }

/-- Lines 95-143 of `add.go`: read `trigger.json`, read the engine config, merge.  The error
of `os.Open(engineConfigPath)` is not tested in the source; decoding from the file that did
not open fails, so a missing engine config ends in the same exit as one that does not
decode. -/
def installTriggerConfig (r : Run) (itemConfig : ItemDescriptor) (itemConfigPath : String) :
    Run :=
  let r1 := r.log (Event.openItemConfig itemConfigPath)
  match r1.disk.itemConfigs itemConfigPath with
  | File.absent =>
    r1.exitWith ("Error: Unable to find '" ++ itemConfigPath ++ "'\n\n") 2
  | File.corrupt =>
    r1.exitWith "Error: Unable to parse trigger.json, file may be corrupted.\n\n" 2
  | File.content triggerProjectDescriptor =>
    let r2 := r1.log Event.openEngineConfig
    match r2.disk.engineConfig with
    | File.absent =>
      r2.exitWith "Error: Unable to parse application config.json, file may be corrupted.\n\n" 2
    | File.corrupt =>
      r2.exitWith "Error: Unable to parse application config.json, file may be corrupted.\n\n" 2
    | File.content engineConfig =>
      mergeTriggerConfig r2 itemConfig triggerProjectDescriptor engineConfig

/-- The function `installItem` of `add.go`.  The resolver `AddFlogoItem` is a parameter; a
resolver that fails does not return, so nothing after the call is executed.  The `switch` on
`itemType` tries the cases in order; `fgutil.NewGb` and `gb.NewBinFilePath` only compute
paths, so the engine config file is the fixed slot `Disk.engineConfig`. -/
def installItem (AddFlogoItem : Resolver) (disk : Disk)
    (projectDescriptor : FlogoProjectDescriptor) (itemType itemPath : String)
    (addToSrc : Bool) : Run :=
  let r0 : Run :=
    { descriptor := projectDescriptor, disk := disk, trace := [], stderr := [],
      status := Status.returned }
  if itemType = itActivity then
    let r1 := r0.log (Event.resolve itActivity itemPath projectDescriptor.Activities addToSrc)
    match AddFlogoItem itActivity itemPath projectDescriptor.Activities addToSrc with
    | Except.error e => { r1 with status := Status.resolverFailed e }
    | Except.ok (itemConfig, _) =>
      updateProjectDescriptorFiles
        { r1 with
          descriptor :=
            { projectDescriptor with
              Activities := projectDescriptor.Activities ++ [itemConfig] } }
  else if itemType = itModel then
    let r1 := r0.log (Event.resolve itModel itemPath projectDescriptor.Models addToSrc)
    match AddFlogoItem itModel itemPath projectDescriptor.Models addToSrc with
    | Except.error e => { r1 with status := Status.resolverFailed e }
    | Except.ok (itemConfig, _) =>
      updateProjectDescriptorFiles
        { r1 with
          descriptor :=
            { projectDescriptor with Models := projectDescriptor.Models ++ [itemConfig] } }
  else if itemType = itTrigger then
    let r1 := r0.log (Event.resolve itTrigger itemPath projectDescriptor.Triggers addToSrc)
    match AddFlogoItem itTrigger itemPath projectDescriptor.Triggers addToSrc with
    | Except.error e => { r1 with status := Status.resolverFailed e }
    | Except.ok (itemConfig, itemConfigPath) =>
      let r2 : Run :=
        { r1 with
          descriptor :=
            { projectDescriptor with
              Triggers := projectDescriptor.Triggers ++ [itemConfig] } }
      let r3 := installTriggerConfig r2 itemConfig itemConfigPath
      match r3.status with
      | Status.returned => updateProjectDescriptorFiles r3
      | _ => r3
  else
    r0.exitWith ("Error: Unknown item type '" ++ itemType ++ "'\n\n") 2

/-- Modelled from the spec: the body of the Item Resolver `AddFlogoItem`, defined outside
`add.go`.  The locator is resolved by `fetch` (the source-fetching collaborator); the resolver
fails with `NotFound` when the locator resolves to no item, with `DuplicateName` when an item of
that name is already in `existingItems`, and otherwise gives the item and its config path. -/
def AddFlogoItem (fetch : String → String → Bool → Option (ItemDescriptor × String)) :
    Resolver :=
  fun itemType itemPath existingItems addToSrc =>
    match fetch itemType itemPath addToSrc with
    | none => Except.error ResolveFailure.NotFound
    | some (item, itemConfigPath) =>
      if existingItems.any (fun i => decide (i.Name = item.Name)) then
        Except.error ResolveFailure.DuplicateName
      else Except.ok (item, itemConfigPath)

/-! ## Observations on a run -/

/-- The descriptors handed to `updateProjectDescriptorFiles`, in order. -/
def savedDescriptors : List Event → List FlogoProjectDescriptor
  | [] => []
  | Event.saveDescriptor d :: rest => d :: savedDescriptors rest
  | _ :: rest => savedDescriptors rest

/-- The engine configs handed to `WriteJSONtoFile`, in order. -/
def writtenEngineConfigs : List Event → List EngineConfig
  | [] => []
  | Event.writeEngineConfig c :: rest => c :: writtenEngineConfigs rest
  | _ :: rest => writtenEngineConfigs rest

/-- The number of calls of the resolver. -/
def resolverCalls : List Event → Nat
  | [] => 0
  | Event.resolve _ _ _ _ :: rest => resolverCalls rest + 1
  | _ :: rest => resolverCalls rest

/-- An event that reads or writes the engine config file. -/
def Event.touchesEngineConfig : Event → Bool
  | Event.openEngineConfig => true
  | Event.writeEngineConfig _ => true
  | _ => false

/-- The run up to the point where the trigger's own config is opened. -/
def triggerStart (disk : Disk) (projectDescriptor : FlogoProjectDescriptor) (itemPath : String)
    (addToSrc : Bool) (itemConfig : ItemDescriptor) : Run :=
  { descriptor :=
      { projectDescriptor with Triggers := projectDescriptor.Triggers ++ [itemConfig] }
    disk := disk
    trace := [Event.resolve itTrigger itemPath projectDescriptor.Triggers addToSrc]
    stderr := []
    status := Status.returned }

/-! ## Sample inputs -/

/-- A resolver that knows three locators: a trigger named `rest`, the same trigger under
a second locator, and an activity named `Logger`. -/
def sampleResolver : Resolver :=
  fun _ itemPath _ _ =>
    if itemPath = "./trg/rest" then
      Except.ok ({ Name := "rest", Meta := "./trg/rest" }, "vendor/rest/trigger.json")
    else if itemPath = "github.com/acme/rest" then
      Except.ok ({ Name := "rest", Meta := "github.com/acme/rest" }, "vendor/acme/trigger.json")
    else if itemPath = "./act/logger" then
      Except.ok ({ Name := "Logger", Meta := "./act/logger" }, "vendor/logger/activity.json")
    else Except.error ResolveFailure.NotFound

/-- Item config artifacts: `vendor/rest/trigger.json` declares `port = 8080`,
`vendor/acme/trigger.json` declares `port = 8080` and then `port = 8081`, and
`vendor/bad/trigger.json` does not decode. -/
def sampleItemConfigs : String → File TriggerProjectDescriptor :=
  fun path =>
    if path = "vendor/rest/trigger.json" then
      File.content { Settings := [{ Name := "port", Value := "8080" }] }
    else if path = "vendor/acme/trigger.json" then
      File.content
        { Settings := [{ Name := "port", Value := "8080" }, { Name := "port", Value := "8081" }] }
    else if path = "vendor/bad/trigger.json" then File.corrupt
    else File.absent

/-- A project without items. -/
def sampleProject : FlogoProjectDescriptor :=
  { Name := "app", Activities := [], Models := [], Triggers := [] }

/-- A project that already has an activity and two triggers. -/
def sampleProjectFull : FlogoProjectDescriptor :=
  { Name := "app"
    Activities := [{ Name := "Logger", Meta := "./act/logger" }]
    Models := []
    Triggers :=
      [{ Name := "timer", Meta := "./trg/timer" }, { Name := "mqtt", Meta := "./trg/mqtt" }] }

/-- A fetch that resolves the locator `./trg/timer2` to a trigger named `timer`. -/
def sampleFetch : String → String → Bool → Option (ItemDescriptor × String) :=
  fun _ itemPath _ =>
    if itemPath = "./trg/timer2" then
      some ({ Name := "timer", Meta := "./trg/timer2" }, "vendor/timer2/trigger.json")
    else none

/-- A disk whose engine config has the empty trigger list. -/
def sampleDiskEmpty : Disk :=
  { descriptor := File.content sampleProject
    engineConfig := File.content { Triggers := some [] }
    itemConfigs := sampleItemConfigs }

/-- A disk whose engine config holds `rest` with the hand-edited setting `port = 9090`. -/
def sampleDiskRest : Disk :=
  { descriptor := File.content sampleProject
    engineConfig := File.content
      { Triggers := some [some { Name := "rest", Settings := [("port", "9090")] }] }
    itemConfigs := sampleItemConfigs }

/-- A disk whose engine config file is `{"triggers":[null]}`: the decoded trigger list has
one entry, a `nil` pointer. -/
def sampleDiskNilEntry : Disk :=
  { descriptor := File.content sampleProject
    engineConfig := File.content { Triggers := some [none] }
    itemConfigs := sampleItemConfigs }

/-- A disk on which no item config artifact can be opened. -/
def sampleDiskNoArtifact : Disk :=
  { descriptor := File.content sampleProject
    engineConfig := File.content { Triggers := some [] }
    itemConfigs := fun _ => File.absent }

/-! ## Lemmas on the helpers -/

theorem containsTriggerConfig_some_true (list : List (Option TriggerConfig))
    (triggerName : String) (h : ContainsTriggerConfig list triggerName = some true) :
    ∃ v, some v ∈ list ∧ v.Name = triggerName := by
  induction list with
  | nil => simp [ContainsTriggerConfig] at h
  | cons e rest ih =>
    cases e with
    | none => simp [ContainsTriggerConfig] at h
    | some v =>
      by_cases hv : v.Name = triggerName
      · exact ⟨v, List.mem_cons_self _ _, hv⟩
      · simp only [ContainsTriggerConfig, hv, if_false] at h
        obtain ⟨w, hw, hn⟩ := ih h
        exact ⟨w, List.mem_cons_of_mem _ hw, hn⟩

theorem containsTriggerConfig_some_false_iff (list : List (Option TriggerConfig))
    (triggerName : String) :
    ContainsTriggerConfig list triggerName = some false
      ↔ ∀ e ∈ list, ∃ v, e = some v ∧ v.Name ≠ triggerName := by
  induction list with
  | nil => simp [ContainsTriggerConfig]
  | cons e rest ih =>
    cases e with
    | none => simp [ContainsTriggerConfig]
    | some v =>
      by_cases hv : v.Name = triggerName
      · simp [ContainsTriggerConfig, hv]
      · simp [ContainsTriggerConfig, hv, ih]

theorem containsTriggerConfig_none (list : List (Option TriggerConfig))
    (triggerName : String) (h : ContainsTriggerConfig list triggerName = none) :
    none ∈ list := by
  induction list with
  | nil => simp [ContainsTriggerConfig] at h
  | cons e rest ih =>
    cases e with
    | none => exact List.mem_cons_self _ _
    | some v =>
      by_cases hv : v.Name = triggerName
      · simp [ContainsTriggerConfig, hv] at h
      · simp only [ContainsTriggerConfig, hv, if_false] at h
        exact List.mem_cons_of_mem _ (ih h)

/-- On a list without `nil` entries the scan answers, and answers `true` exactly when some
entry has the name. -/
theorem containsTriggerConfig_of_no_nil (list : List (Option TriggerConfig))
    (triggerName : String) (hnn : ∀ e ∈ list, e ≠ none) :
    (ContainsTriggerConfig list triggerName = some true
        ↔ ∃ v, some v ∈ list ∧ v.Name = triggerName)
      ∧ (ContainsTriggerConfig list triggerName = some false
        ↔ ¬ ∃ v, some v ∈ list ∧ v.Name = triggerName) := by
  have hfalse : ContainsTriggerConfig list triggerName = some false
      ↔ ¬ ∃ v, some v ∈ list ∧ v.Name = triggerName := by
    rw [containsTriggerConfig_some_false_iff]
    constructor
    · rintro h ⟨v, hv, hn⟩
      obtain ⟨w, hw, hne⟩ := h (some v) hv
      cases hw
      exact hne hn
    · intro h e he
      cases e with
      | none => exact absurd rfl (hnn none he)
      | some v => exact ⟨v, rfl, fun hn => h ⟨v, he, hn⟩⟩
  refine ⟨⟨containsTriggerConfig_some_true list triggerName, fun hex => ?_⟩, hfalse⟩
  cases hc : ContainsTriggerConfig list triggerName with
  | none => exact absurd (containsTriggerConfig_none list triggerName hc) (fun h => hnn none h rfl)
  | some b =>
    cases b with
    | true => rfl
    | false => exact absurd hex (hfalse.1 hc)

theorem entryNames_append (l₁ l₂ : List (Option TriggerConfig)) :
    entryNames (l₁ ++ l₂) = entryNames l₁ ++ entryNames l₂ := by
  induction l₁ with
  | nil => rfl
  | cons e rest ih =>
    cases e with
    | none => simpa [entryNames] using ih
    | some v => simp [entryNames, ih]

theorem mem_entryNames (list : List (Option TriggerConfig)) (n : String) :
    n ∈ entryNames list ↔ ∃ v, some v ∈ list ∧ v.Name = n := by
  induction list with
  | nil => simp [entryNames]
  | cons e rest ih =>
    cases e with
    | none => simp [entryNames, ih]
    | some v =>
      simp only [entryNames, List.mem_cons, ih, Option.some.injEq]
      constructor
      · rintro (h | ⟨w, hw, hn⟩)
        · exact ⟨v, Or.inl rfl, h.symm⟩
        · exact ⟨w, Or.inr hw, hn⟩
      · rintro ⟨w, hw | hw, hn⟩
        · subst hw
          exact Or.inl hn.symm
        · exact Or.inr ⟨w, hw, hn⟩

theorem GoMap.get_set (m : GoMap) (k v k' : String) :
    (GoMap.set m k v).get k' = if k = k' then some v else m.get k' := by
  induction m with
  | nil => simp [GoMap.set, GoMap.get]
  | cons p rest ih =>
    obtain ⟨a, b⟩ := p
    by_cases hak : a = k
    · subst hak
      by_cases h : a = k' <;> simp [GoMap.set, GoMap.get, h]
    · by_cases hak' : a = k'
      · subst hak'
        have hne : ¬ k = a := fun h => hak h.symm
        simp [GoMap.set, GoMap.get, hak, hne]
      · simp [GoMap.set, GoMap.get, hak, hak', ih]

theorem GoMap.keys_set (m : GoMap) (k v : String) :
    (GoMap.set m k v).map Prod.fst
      = if k ∈ m.map Prod.fst then m.map Prod.fst else m.map Prod.fst ++ [k] := by
  induction m with
  | nil => simp [GoMap.set]
  | cons p rest ih =>
    obtain ⟨a, b⟩ := p
    by_cases hak : a = k
    · subst hak
      simp [GoMap.set]
    · have hne : ¬ k = a := fun h => hak h.symm
      by_cases hmem : k ∈ rest.map Prod.fst
      · simp only [GoMap.set, hak, if_false, List.map_cons, ih, hmem, if_true,
          List.mem_cons, or_true]
      · simp only [GoMap.set, hak, if_false, List.map_cons, ih, hmem, List.mem_cons, hne,
          or_self, List.cons_append]

theorem GoMap.nodup_keys_set (m : GoMap) (k v : String) (h : (m.map Prod.fst).Nodup) :
    ((GoMap.set m k v).map Prod.fst).Nodup := by
  rw [GoMap.keys_set]
  by_cases hmem : k ∈ m.map Prod.fst
  · simpa [hmem] using h
  · rw [if_neg hmem]
    exact List.Nodup.append h (List.nodup_singleton k) (by simpa using hmem)

theorem GoMap.mem_keys_iff_get (m : GoMap) (k : String) :
    k ∈ m.map Prod.fst ↔ (m.get k).isSome = true := by
  induction m with
  | nil => simp [GoMap.get]
  | cons p rest ih =>
    obtain ⟨a, b⟩ := p
    by_cases hak : a = k
    · simp [GoMap.get, hak]
    · have hne : ¬ k = a := fun h => hak h.symm
      simp [GoMap.get, hak, hne, ih]

theorem copySettings_nodup_keys (decl : List ConfigValue) (m : GoMap)
    (h : (m.map Prod.fst).Nodup) : ((copySettings decl m).map Prod.fst).Nodup := by
  induction decl generalizing m with
  | nil => simpa [copySettings] using h
  | cons s rest ih => exact ih _ (GoMap.nodup_keys_set m s.Name s.Value h)

theorem copySettings_get_of_not_declared (decl : List ConfigValue) (m : GoMap) (k : String)
    (h : ∀ s ∈ decl, s.Name ≠ k) : (copySettings decl m).get k = m.get k := by
  induction decl generalizing m with
  | nil => rfl
  | cons s rest ih =>
    have hs : s.Name ≠ k := h s (List.mem_cons_self s rest)
    have hrest : ∀ u ∈ rest, u.Name ≠ k := fun u hu => h u (List.mem_cons_of_mem s hu)
    rw [copySettings, ih _ hrest, GoMap.get_set, if_neg hs]

theorem copySettings_get_last (pre post : List ConfigValue) (s : ConfigValue) (m : GoMap)
    (h : ∀ u ∈ post, u.Name ≠ s.Name) :
    (copySettings (pre ++ s :: post) m).get s.Name = some s.Value := by
  induction pre generalizing m with
  | nil =>
    rw [List.nil_append, copySettings, copySettings_get_of_not_declared post _ _ h,
      GoMap.get_set, if_pos rfl]
  | cons p rest ih => exact ih _

theorem copySettings_get_isSome (decl : List ConfigValue) (m : GoMap) (k : String) :
    ((copySettings decl m).get k).isSome = true
      ↔ (∃ s ∈ decl, s.Name = k) ∨ (m.get k).isSome = true := by
  induction decl generalizing m with
  | nil => simp [copySettings]
  | cons s rest ih =>
    rw [copySettings, ih, GoMap.get_set]
    by_cases hs : s.Name = k
    · simp [hs]
    · simp [hs]

/-! ## Lemmas on `installItem` -/

theorem itTrigger_ne_itActivity : itTrigger ≠ itActivity := by decide

theorem itTrigger_ne_itModel : itTrigger ≠ itModel := by decide

theorem itModel_ne_itActivity : itModel ≠ itActivity := by decide

theorem installItem_trigger_resolved (R : Resolver) (disk : Disk)
    (pd : FlogoProjectDescriptor) (itemPath : String) (addToSrc : Bool)
    (itemConfig : ItemDescriptor) (itemConfigPath : String)
    (hres : R itTrigger itemPath pd.Triggers addToSrc = Except.ok (itemConfig, itemConfigPath)) :
    installItem R disk pd itTrigger itemPath addToSrc
      = match (installTriggerConfig (triggerStart disk pd itemPath addToSrc itemConfig)
            itemConfig itemConfigPath).status with
        | Status.returned =>
          updateProjectDescriptorFiles
            (installTriggerConfig (triggerStart disk pd itemPath addToSrc itemConfig)
              itemConfig itemConfigPath)
        | _ =>
          installTriggerConfig (triggerStart disk pd itemPath addToSrc itemConfig)
            itemConfig itemConfigPath := by
  simp only [installItem, if_neg itTrigger_ne_itActivity, if_neg itTrigger_ne_itModel, if_true,
    hres, Run.log, triggerStart, List.nil_append]

theorem installItem_trigger_unresolved (R : Resolver) (disk : Disk)
    (pd : FlogoProjectDescriptor) (itemPath : String) (addToSrc : Bool) (e : ResolveFailure)
    (hres : R itTrigger itemPath pd.Triggers addToSrc = Except.error e) :
    installItem R disk pd itTrigger itemPath addToSrc
      = { descriptor := pd, disk := disk,
          trace := [Event.resolve itTrigger itemPath pd.Triggers addToSrc],
          stderr := [], status := Status.resolverFailed e } := by
  simp only [installItem, if_neg itTrigger_ne_itActivity, if_neg itTrigger_ne_itModel, if_true,
    hres, Run.log, List.nil_append]

/-- The merge step, when both files decode and the name is already in the engine config. -/
theorem installTriggerConfig_present (r : Run) (itemConfig : ItemDescriptor)
    (itemConfigPath : String) (tpd : TriggerProjectDescriptor) (ec : EngineConfig)
    (htc : r.disk.itemConfigs itemConfigPath = File.content tpd)
    (hec : r.disk.engineConfig = File.content ec)
    (hin : ContainsTriggerConfig ec.triggerList itemConfig.Name = some true) :
    installTriggerConfig r itemConfig itemConfigPath
      = { r with
          trace := r.trace ++ [Event.openItemConfig itemConfigPath] ++ [Event.openEngineConfig] }
      := by
  cases hT : ec.Triggers <;>
    simp_all [installTriggerConfig, mergeTriggerConfig, Run.log, EngineConfig.triggerList]

/-- The merge step, when both files decode and the name is not in the engine config. -/
theorem installTriggerConfig_fresh (r : Run) (itemConfig : ItemDescriptor)
    (itemConfigPath : String) (tpd : TriggerProjectDescriptor) (ec : EngineConfig)
    (htc : r.disk.itemConfigs itemConfigPath = File.content tpd)
    (hec : r.disk.engineConfig = File.content ec)
    (hout : ContainsTriggerConfig ec.triggerList itemConfig.Name = some false) :
    installTriggerConfig r itemConfig itemConfigPath
      = { r with
          disk :=
            { r.disk with
              engineConfig := File.content
                { Triggers := some (ec.triggerList ++
                    [some { Name := itemConfig.Name
                            Settings := copySettings tpd.Settings GoMap.empty }]) } }
          trace := r.trace ++ [Event.openItemConfig itemConfigPath] ++ [Event.openEngineConfig]
            ++ [Event.writeEngineConfig
                { Triggers := some (ec.triggerList ++
                    [some { Name := itemConfig.Name
                            Settings := copySettings tpd.Settings GoMap.empty }]) }] } := by
  cases hT : ec.Triggers <;>
    simp_all [installTriggerConfig, mergeTriggerConfig, Run.log, EngineConfig.triggerList,
      writeEngineConfig]

/-- The merge step, when both files decode and the scan of the trigger list panics. -/
theorem installTriggerConfig_panic (r : Run) (itemConfig : ItemDescriptor)
    (itemConfigPath : String) (tpd : TriggerProjectDescriptor) (ec : EngineConfig)
    (htc : r.disk.itemConfigs itemConfigPath = File.content tpd)
    (hec : r.disk.engineConfig = File.content ec)
    (hnil : ContainsTriggerConfig ec.triggerList itemConfig.Name = none) :
    installTriggerConfig r itemConfig itemConfigPath
      = { r with
          trace := r.trace ++ [Event.openItemConfig itemConfigPath] ++ [Event.openEngineConfig]
          status := Status.panicked } := by
  cases hT : ec.Triggers <;>
    simp_all [installTriggerConfig, mergeTriggerConfig, Run.log, EngineConfig.triggerList]

/-- The whole run of a trigger install in which the scan of the trigger list panics. -/
theorem installItem_trigger_panic_run (R : Resolver) (disk : Disk)
    (pd : FlogoProjectDescriptor) (itemPath : String) (addToSrc : Bool)
    (itemConfig : ItemDescriptor) (itemConfigPath : String)
    (tpd : TriggerProjectDescriptor) (ec : EngineConfig)
    (hres : R itTrigger itemPath pd.Triggers addToSrc = Except.ok (itemConfig, itemConfigPath))
    (htc : disk.itemConfigs itemConfigPath = File.content tpd)
    (hec : disk.engineConfig = File.content ec)
    (hnil : ContainsTriggerConfig ec.triggerList itemConfig.Name = none) :
    installItem R disk pd itTrigger itemPath addToSrc
      = { descriptor := { pd with Triggers := pd.Triggers ++ [itemConfig] }
          disk := disk
          trace :=
            [Event.resolve itTrigger itemPath pd.Triggers addToSrc,
             Event.openItemConfig itemConfigPath, Event.openEngineConfig]
          stderr := []
          status := Status.panicked } := by
  rw [installItem_trigger_resolved R disk pd itemPath addToSrc itemConfig itemConfigPath hres,
    installTriggerConfig_panic (triggerStart disk pd itemPath addToSrc itemConfig) itemConfig
      itemConfigPath tpd ec htc hec hnil]
  simp [triggerStart]

/-- The whole run of a trigger install whose name is already in the engine config. -/
theorem installItem_trigger_present_run (R : Resolver) (disk : Disk)
    (pd : FlogoProjectDescriptor) (itemPath : String) (addToSrc : Bool)
    (itemConfig : ItemDescriptor) (itemConfigPath : String)
    (tpd : TriggerProjectDescriptor) (ec : EngineConfig)
    (hres : R itTrigger itemPath pd.Triggers addToSrc = Except.ok (itemConfig, itemConfigPath))
    (htc : disk.itemConfigs itemConfigPath = File.content tpd)
    (hec : disk.engineConfig = File.content ec)
    (hin : ContainsTriggerConfig ec.triggerList itemConfig.Name = some true) :
    installItem R disk pd itTrigger itemPath addToSrc
      = { descriptor := { pd with Triggers := pd.Triggers ++ [itemConfig] }
          disk :=
            { disk with
              descriptor := File.content { pd with Triggers := pd.Triggers ++ [itemConfig] } }
          trace :=
            [Event.resolve itTrigger itemPath pd.Triggers addToSrc,
             Event.openItemConfig itemConfigPath, Event.openEngineConfig,
             Event.saveDescriptor { pd with Triggers := pd.Triggers ++ [itemConfig] }]
          stderr := []
          status := Status.returned } := by
  rw [installItem_trigger_resolved R disk pd itemPath addToSrc itemConfig itemConfigPath hres,
    installTriggerConfig_present (triggerStart disk pd itemPath addToSrc itemConfig) itemConfig
      itemConfigPath tpd ec htc hec hin]
  simp [triggerStart, updateProjectDescriptorFiles]

/-- The whole run of a trigger install whose name is not yet in the engine config. -/
theorem installItem_trigger_fresh_run (R : Resolver) (disk : Disk)
    (pd : FlogoProjectDescriptor) (itemPath : String) (addToSrc : Bool)
    (itemConfig : ItemDescriptor) (itemConfigPath : String)
    (tpd : TriggerProjectDescriptor) (ec : EngineConfig)
    (hres : R itTrigger itemPath pd.Triggers addToSrc = Except.ok (itemConfig, itemConfigPath))
    (htc : disk.itemConfigs itemConfigPath = File.content tpd)
    (hec : disk.engineConfig = File.content ec)
    (hout : ContainsTriggerConfig ec.triggerList itemConfig.Name = some false) :
    installItem R disk pd itTrigger itemPath addToSrc
      = { descriptor := { pd with Triggers := pd.Triggers ++ [itemConfig] }
          disk :=
            { descriptor := File.content { pd with Triggers := pd.Triggers ++ [itemConfig] }
              engineConfig := File.content
                { Triggers := some (ec.triggerList ++
                    [some { Name := itemConfig.Name
                            Settings := copySettings tpd.Settings GoMap.empty }]) }
              itemConfigs := disk.itemConfigs }
          trace :=
            [Event.resolve itTrigger itemPath pd.Triggers addToSrc,
             Event.openItemConfig itemConfigPath, Event.openEngineConfig,
             Event.writeEngineConfig
                { Triggers := some (ec.triggerList ++
                    [some { Name := itemConfig.Name
                            Settings := copySettings tpd.Settings GoMap.empty }]) },
             Event.saveDescriptor { pd with Triggers := pd.Triggers ++ [itemConfig] }]
          stderr := []
          status := Status.returned } := by
  rw [installItem_trigger_resolved R disk pd itemPath addToSrc itemConfig itemConfigPath hres,
    installTriggerConfig_fresh (triggerStart disk pd itemPath addToSrc itemConfig) itemConfig
      itemConfigPath tpd ec htc hec hout]
  simp [triggerStart, updateProjectDescriptorFiles]

/-- The run of a trigger install that stops at one of the two config files. -/
theorem installItem_trigger_failed_run (R : Resolver) (disk : Disk)
    (pd : FlogoProjectDescriptor) (itemPath : String) (addToSrc : Bool)
    (itemConfig : ItemDescriptor) (itemConfigPath : String)
    (hres : R itTrigger itemPath pd.Triggers addToSrc = Except.ok (itemConfig, itemConfigPath))
    (hfail : (∀ tpd, disk.itemConfigs itemConfigPath ≠ File.content tpd)
      ∨ ∀ ec, disk.engineConfig ≠ File.content ec) :
    (installItem R disk pd itTrigger itemPath addToSrc).status = Status.exited 2
      ∧ (installItem R disk pd itTrigger itemPath addToSrc).disk = disk
      ∧ (installItem R disk pd itTrigger itemPath addToSrc).descriptor
          = { pd with Triggers := pd.Triggers ++ [itemConfig] }
      ∧ savedDescriptors (installItem R disk pd itTrigger itemPath addToSrc).trace = []
      ∧ writtenEngineConfigs (installItem R disk pd itTrigger itemPath addToSrc).trace = [] := by
  rw [installItem_trigger_resolved R disk pd itemPath addToSrc itemConfig itemConfigPath hres]
  cases htc : disk.itemConfigs itemConfigPath with
  | absent =>
    simp [installTriggerConfig, triggerStart, Run.log, Run.exitWith, htc, savedDescriptors,
      writtenEngineConfigs]
  | corrupt =>
    simp [installTriggerConfig, triggerStart, Run.log, Run.exitWith, htc, savedDescriptors,
      writtenEngineConfigs]
  | content tpd =>
    have hec : ∀ ec, disk.engineConfig ≠ File.content ec := by
      rcases hfail with h | h
      · exact absurd htc (h tpd)
      · exact h
    cases hE : disk.engineConfig with
    | absent =>
      simp [installTriggerConfig, triggerStart, Run.log, Run.exitWith, htc, hE,
        savedDescriptors, writtenEngineConfigs]
    | corrupt =>
      simp [installTriggerConfig, triggerStart, Run.log, Run.exitWith, htc, hE,
        savedDescriptors, writtenEngineConfigs]
    | content ec => exact absurd hE (hec ec)

/-- Either one of the two config files does not decode, or both do. -/
theorem configs_decode_or_not (disk : Disk) (itemConfigPath : String) :
    ((∀ tpd, disk.itemConfigs itemConfigPath ≠ File.content tpd)
        ∨ ∀ ec, disk.engineConfig ≠ File.content ec)
      ∨ ∃ tpd ec, disk.itemConfigs itemConfigPath = File.content tpd
          ∧ disk.engineConfig = File.content ec := by
  cases htc : disk.itemConfigs itemConfigPath with
  | absent => exact Or.inl (Or.inl (fun tpd h => by cases h))
  | corrupt => exact Or.inl (Or.inl (fun tpd h => by cases h))
  | content tpd =>
    cases hE : disk.engineConfig with
    | absent => exact Or.inl (Or.inr (fun ec h => by cases h))
    | corrupt => exact Or.inl (Or.inr (fun ec h => by cases h))
    | content ec => exact Or.inr ⟨tpd, ec, rfl, rfl⟩

/-- On a trigger list without `nil` entries and without an entry named as the resolved
trigger (both files decoding), the install writes, once, the prior list followed by one new
entry: the entry has the item's name, its settings map has exactly the declared names as keys
(each once), and every declared name is mapped to the value of its last declaration. -/
theorem installItem_trigger_fresh_appends_entry (R : Resolver) (disk : Disk)
    (pd : FlogoProjectDescriptor) (itemPath : String) (addToSrc : Bool)
    (itemConfig : ItemDescriptor) (itemConfigPath : String)
    (tpd : TriggerProjectDescriptor) (ec : EngineConfig)
    (hres : R itTrigger itemPath pd.Triggers addToSrc = Except.ok (itemConfig, itemConfigPath))
    (htc : disk.itemConfigs itemConfigPath = File.content tpd)
    (hec : disk.engineConfig = File.content ec)
    (hnn : ∀ e ∈ ec.triggerList, e ≠ none)
    (hout : ¬ ∃ t, some t ∈ ec.triggerList ∧ t.Name = itemConfig.Name) :
    ∃ entry : TriggerConfig,
      (installItem R disk pd itTrigger itemPath addToSrc).status = Status.returned
      ∧ (installItem R disk pd itTrigger itemPath addToSrc).disk.engineConfig
          = File.content { Triggers := some (ec.triggerList ++ [some entry]) }
      ∧ writtenEngineConfigs (installItem R disk pd itTrigger itemPath addToSrc).trace
          = [{ Triggers := some (ec.triggerList ++ [some entry]) }]
      ∧ entry.Name = itemConfig.Name
      ∧ (∀ k, k ∈ entry.Settings.map Prod.fst ↔ ∃ s ∈ tpd.Settings, s.Name = k)
      ∧ (entry.Settings.map Prod.fst).Nodup
      ∧ (∀ k, (entry.Settings.get k).isSome = true ↔ ∃ s ∈ tpd.Settings, s.Name = k)
      ∧ (∀ pre s post, tpd.Settings = pre ++ s :: post → (∀ u ∈ post, u.Name ≠ s.Name) →
          entry.Settings.get s.Name = some s.Value) := by
  refine ⟨{ Name := itemConfig.Name, Settings := copySettings tpd.Settings GoMap.empty }, ?_⟩
  rw [installItem_trigger_fresh_run R disk pd itemPath addToSrc itemConfig itemConfigPath tpd
    ec hres htc hec ((containsTriggerConfig_of_no_nil _ _ hnn).2.2 hout)]
  have hsome : ∀ k, ((copySettings tpd.Settings GoMap.empty).get k).isSome = true
      ↔ ∃ s ∈ tpd.Settings, s.Name = k := by
    intro k
    rw [copySettings_get_isSome]
    simp [GoMap.empty, GoMap.get]
  refine ⟨rfl, rfl, rfl, rfl, ?_, ?_, hsome, ?_⟩
  · intro k
    rw [GoMap.mem_keys_iff_get]
    exact hsome k
  · exact copySettings_nodup_keys tpd.Settings GoMap.empty (by simp [GoMap.empty])
  · intro pre s post hsplit hlast
    show (copySettings tpd.Settings GoMap.empty).get s.Name = some s.Value
    rw [hsplit]
    exact copySettings_get_last pre post s GoMap.empty hlast

/-! ## The claims -/

/-- C10: at the list `[nil, {Name: rest}]` and the name `rest`, an element of the list has
that name, yet `ContainsTriggerConfig` does not answer `true`: the scan reads `v.Name` through
the `nil` first entry (line 157) and panics. -/
theorem ContainsTriggerConfig_panics_at_nil_entry :
    (∃ v, some v ∈ [none, some ({ Name := "rest", Settings := [] } : TriggerConfig)]
        ∧ v.Name = "rest")
      ∧ ContainsTriggerConfig [none, some { Name := "rest", Settings := [] }] "rest" = none
      ∧ ContainsTriggerConfig [none, some { Name := "rest", Settings := [] }] "rest"
          ≠ some true :=
  ⟨⟨{ Name := "rest", Settings := [] }, by simp, rfl⟩, rfl, by decide⟩

/-- C1: when the engine config already has an entry named as the resolved trigger (and both
the trigger config and the engine config decode), installing the trigger makes no write of
the engine config: the engine config file is the one from before, so every entry of that
name is still there with the settings it had, whatever the trigger declares.  The run
returns when the scan finds the entry, and it does on every list without `nil` entries; the
only other end is the panic of the scan at a `nil` entry, which also writes nothing. -/
theorem installItem_trigger_present_leaves_engine_config (R : Resolver) (disk : Disk)
    (pd : FlogoProjectDescriptor) (itemPath : String) (addToSrc : Bool)
    (itemConfig : ItemDescriptor) (itemConfigPath : String)
    (tpd : TriggerProjectDescriptor) (ec : EngineConfig)
    (hres : R itTrigger itemPath pd.Triggers addToSrc = Except.ok (itemConfig, itemConfigPath))
    (htc : disk.itemConfigs itemConfigPath = File.content tpd)
    (hec : disk.engineConfig = File.content ec)
    (hin : ∃ t, some t ∈ ec.triggerList ∧ t.Name = itemConfig.Name) :
    ((installItem R disk pd itTrigger itemPath addToSrc).status = Status.returned
        ∨ (installItem R disk pd itTrigger itemPath addToSrc).status = Status.panicked)
      ∧ ((∀ e ∈ ec.triggerList, e ≠ none) →
          (installItem R disk pd itTrigger itemPath addToSrc).status = Status.returned)
      ∧ writtenEngineConfigs (installItem R disk pd itTrigger itemPath addToSrc).trace = []
      ∧ (installItem R disk pd itTrigger itemPath addToSrc).disk.engineConfig
          = disk.engineConfig
      ∧ (installItem R disk pd itTrigger itemPath addToSrc).disk.engineConfig
          = File.content ec := by
  cases hc : ContainsTriggerConfig ec.triggerList itemConfig.Name with
  | none =>
    rw [installItem_trigger_panic_run R disk pd itemPath addToSrc itemConfig itemConfigPath tpd
      ec hres htc hec hc]
    refine ⟨Or.inr rfl, ?_, rfl, rfl, hec⟩
    intro hnn
    exact absurd (containsTriggerConfig_none _ _ hc) (fun h => hnn none h rfl)
  | some b =>
    cases b with
    | true =>
      rw [installItem_trigger_present_run R disk pd itemPath addToSrc itemConfig itemConfigPath
        tpd ec hres htc hec hc]
      exact ⟨Or.inl rfl, fun _ => rfl, rfl, rfl, hec⟩
    | false =>
      obtain ⟨t, ht, hn⟩ := hin
      obtain ⟨w, hw, hne⟩ := (containsTriggerConfig_some_false_iff _ _).1 hc (some t) ht
      cases hw
      exact absurd hn hne

/-- C1, on the sample: `rest` is in the engine config with `port = 9090`; installing a second
locator that resolves to `rest` and declares `port = 8080, 8081` returns and leaves
`port = 9090`. -/
theorem installItem_trigger_present_leaves_engine_config_witness :
    (installItem sampleResolver sampleDiskRest sampleProject itTrigger "github.com/acme/rest"
        false).status = Status.returned
      ∧ ((installItem sampleResolver sampleDiskRest sampleProject itTrigger
            "github.com/acme/rest" false).status = Status.returned
          ∨ (installItem sampleResolver sampleDiskRest sampleProject itTrigger
            "github.com/acme/rest" false).status = Status.panicked)
      ∧ ((∀ e ∈ EngineConfig.triggerList
              { Triggers := some [some { Name := "rest", Settings := [("port", "9090")] }] },
            e ≠ none) →
          (installItem sampleResolver sampleDiskRest sampleProject itTrigger
            "github.com/acme/rest" false).status = Status.returned)
      ∧ writtenEngineConfigs (installItem sampleResolver sampleDiskRest sampleProject itTrigger
          "github.com/acme/rest" false).trace = []
      ∧ (installItem sampleResolver sampleDiskRest sampleProject itTrigger
          "github.com/acme/rest" false).disk.engineConfig = sampleDiskRest.engineConfig
      ∧ (installItem sampleResolver sampleDiskRest sampleProject itTrigger
          "github.com/acme/rest" false).disk.engineConfig
          = File.content
              { Triggers :=
                  some [some { Name := "rest", Settings := [("port", "9090")] }] } :=
  ⟨by decide,
    installItem_trigger_present_leaves_engine_config sampleResolver sampleDiskRest
      sampleProject "github.com/acme/rest" false
      { Name := "rest", Meta := "github.com/acme/rest" } "vendor/acme/trigger.json"
      { Settings :=
          [{ Name := "port", Value := "8080" }, { Name := "port", Value := "8081" }] }
      { Triggers := some [some { Name := "rest", Settings := [("port", "9090")] }] }
      rfl (by decide) rfl
      ⟨{ Name := "rest", Settings := [("port", "9090")] }, by simp [EngineConfig.triggerList],
        rfl⟩⟩

/-- C2: at the engine config `{"triggers":[null]}`, trigger `rest` declaring `port = 8080`:
the resolver gives `rest`, both files decode and no entry of the trigger list is named
`rest`, yet no engine config is written: the scan of the list panics at the `nil` entry, the
engine config file is the one from before and the descriptor is not saved. -/
theorem installItem_trigger_nil_entry_writes_nothing :
    sampleResolver itTrigger "./trg/rest" sampleProject.Triggers false
        = Except.ok ({ Name := "rest", Meta := "./trg/rest" }, "vendor/rest/trigger.json")
      ∧ sampleDiskNilEntry.itemConfigs "vendor/rest/trigger.json"
          = File.content { Settings := [{ Name := "port", Value := "8080" }] }
      ∧ sampleDiskNilEntry.engineConfig = File.content { Triggers := some [none] }
      ∧ (¬ ∃ t, some t ∈ EngineConfig.triggerList { Triggers := some [none] }
          ∧ t.Name = "rest")
      ∧ (installItem sampleResolver sampleDiskNilEntry sampleProject itTrigger "./trg/rest"
          false).status = Status.panicked
      ∧ writtenEngineConfigs (installItem sampleResolver sampleDiskNilEntry sampleProject
          itTrigger "./trg/rest" false).trace = []
      ∧ (installItem sampleResolver sampleDiskNilEntry sampleProject itTrigger "./trg/rest"
          false).disk.engineConfig = File.content { Triggers := some [none] }
      ∧ savedDescriptors (installItem sampleResolver sampleDiskNilEntry sampleProject
          itTrigger "./trg/rest" false).trace = [] :=
  ⟨rfl, by decide, rfl, by simp [EngineConfig.triggerList], by decide, by decide, by decide,
    by decide⟩

/-- C3: whenever `installItem` returns, the item type is one of the three, the resolver gave
an item for that type's list, and the descriptor handed to the one persist step (which is
also the descriptor left on disk) is the input descriptor with that item appended at the end
of that type's list, `Name` and the other two lists being those of the input. -/
theorem installItem_returned_appends_item (R : Resolver) (disk : Disk)
    (pd : FlogoProjectDescriptor) (itemType itemPath : String) (addToSrc : Bool)
    (hok : (installItem R disk pd itemType itemPath addToSrc).status = Status.returned) :
    ∃ (item : ItemDescriptor) (itemConfigPath : String) (saved : FlogoProjectDescriptor),
      savedDescriptors (installItem R disk pd itemType itemPath addToSrc).trace = [saved]
      ∧ (installItem R disk pd itemType itemPath addToSrc).disk.descriptor
          = File.content saved
      ∧ saved.Name = pd.Name
      ∧ ((itemType = itActivity
            ∧ R itActivity itemPath pd.Activities addToSrc = Except.ok (item, itemConfigPath)
            ∧ saved.Activities = pd.Activities ++ [item]
            ∧ saved.Models = pd.Models ∧ saved.Triggers = pd.Triggers)
          ∨ (itemType = itModel
            ∧ R itModel itemPath pd.Models addToSrc = Except.ok (item, itemConfigPath)
            ∧ saved.Activities = pd.Activities
            ∧ saved.Models = pd.Models ++ [item] ∧ saved.Triggers = pd.Triggers)
          ∨ (itemType = itTrigger
            ∧ R itTrigger itemPath pd.Triggers addToSrc = Except.ok (item, itemConfigPath)
            ∧ saved.Activities = pd.Activities
            ∧ saved.Models = pd.Models ∧ saved.Triggers = pd.Triggers ++ [item])) := by
  by_cases hA : itemType = itActivity
  · subst hA
    cases hres : R itActivity itemPath pd.Activities addToSrc with
    | error e => simp [installItem, hres] at hok
    | ok p =>
      obtain ⟨item, itemConfigPath⟩ := p
      refine ⟨item, itemConfigPath,
        { pd with Activities := pd.Activities ++ [item] }, ?_, ?_, rfl,
        Or.inl ⟨rfl, rfl, rfl, rfl, rfl⟩⟩
      · simp [installItem, hres, updateProjectDescriptorFiles, Run.log, savedDescriptors]
      · simp [installItem, hres, updateProjectDescriptorFiles, Run.log]
  · by_cases hM : itemType = itModel
    · subst hM
      cases hres : R itModel itemPath pd.Models addToSrc with
      | error e => simp [installItem, hres, itModel_ne_itActivity] at hok
      | ok p =>
        obtain ⟨item, itemConfigPath⟩ := p
        refine ⟨item, itemConfigPath,
          { pd with Models := pd.Models ++ [item] }, ?_, ?_, rfl,
          Or.inr (Or.inl ⟨rfl, rfl, rfl, rfl, rfl⟩)⟩
        · simp [installItem, hres, itModel_ne_itActivity, updateProjectDescriptorFiles,
            Run.log, savedDescriptors]
        · simp [installItem, hres, itModel_ne_itActivity, updateProjectDescriptorFiles,
            Run.log]
    · by_cases hT : itemType = itTrigger
      · subst hT
        cases hres : R itTrigger itemPath pd.Triggers addToSrc with
        | error e =>
          rw [installItem_trigger_unresolved R disk pd itemPath addToSrc e hres] at hok
          cases hok
        | ok p =>
          obtain ⟨item, itemConfigPath⟩ := p
          refine ⟨item, itemConfigPath,
            { pd with Triggers := pd.Triggers ++ [item] }, ?_, ?_, rfl,
            Or.inr (Or.inr ⟨rfl, rfl, rfl, rfl, rfl⟩)⟩
          · rcases configs_decode_or_not disk itemConfigPath with hfail | ⟨tpd, ec, htc, hE⟩
            · have h := (installItem_trigger_failed_run R disk pd itemPath addToSrc item
                itemConfigPath hres hfail).1
              rw [hok] at h
              cases h
            · cases hc : ContainsTriggerConfig ec.triggerList item.Name with
              | none =>
                rw [installItem_trigger_panic_run R disk pd itemPath addToSrc item
                  itemConfigPath tpd ec hres htc hE hc] at hok
                cases hok
              | some b =>
                cases b with
                | true =>
                  rw [installItem_trigger_present_run R disk pd itemPath addToSrc item
                    itemConfigPath tpd ec hres htc hE hc]
                  rfl
                | false =>
                  rw [installItem_trigger_fresh_run R disk pd itemPath addToSrc item
                    itemConfigPath tpd ec hres htc hE hc]
                  rfl
          · rcases configs_decode_or_not disk itemConfigPath with hfail | ⟨tpd, ec, htc, hE⟩
            · have h := (installItem_trigger_failed_run R disk pd itemPath addToSrc item
                itemConfigPath hres hfail).1
              rw [hok] at h
              cases h
            · cases hc : ContainsTriggerConfig ec.triggerList item.Name with
              | none =>
                rw [installItem_trigger_panic_run R disk pd itemPath addToSrc item
                  itemConfigPath tpd ec hres htc hE hc] at hok
                cases hok
              | some b =>
                cases b with
                | true =>
                  rw [installItem_trigger_present_run R disk pd itemPath addToSrc item
                    itemConfigPath tpd ec hres htc hE hc]
                | false =>
                  rw [installItem_trigger_fresh_run R disk pd itemPath addToSrc item
                    itemConfigPath tpd ec hres htc hE hc]
      · simp [installItem, hA, hM, hT, Run.exitWith] at hok

/-- C3, on the sample: installing trigger `rest` into a project with triggers `timer, mqtt`
persists the triggers `timer, mqtt, rest`. -/
theorem installItem_returned_appends_item_witness :
    ∃ (item : ItemDescriptor) (itemConfigPath : String) (saved : FlogoProjectDescriptor),
      savedDescriptors (installItem sampleResolver sampleDiskEmpty sampleProjectFull itTrigger
          "./trg/rest" false).trace = [saved]
      ∧ (installItem sampleResolver sampleDiskEmpty sampleProjectFull itTrigger "./trg/rest"
          false).disk.descriptor = File.content saved
      ∧ saved.Name = sampleProjectFull.Name
      ∧ ((itTrigger = itActivity
            ∧ sampleResolver itActivity "./trg/rest" sampleProjectFull.Activities false
                = Except.ok (item, itemConfigPath)
            ∧ saved.Activities = sampleProjectFull.Activities ++ [item]
            ∧ saved.Models = sampleProjectFull.Models
            ∧ saved.Triggers = sampleProjectFull.Triggers)
          ∨ (itTrigger = itModel
            ∧ sampleResolver itModel "./trg/rest" sampleProjectFull.Models false
                = Except.ok (item, itemConfigPath)
            ∧ saved.Activities = sampleProjectFull.Activities
            ∧ saved.Models = sampleProjectFull.Models ++ [item]
            ∧ saved.Triggers = sampleProjectFull.Triggers)
          ∨ (itTrigger = itTrigger
            ∧ sampleResolver itTrigger "./trg/rest" sampleProjectFull.Triggers false
                = Except.ok (item, itemConfigPath)
            ∧ saved.Activities = sampleProjectFull.Activities
            ∧ saved.Models = sampleProjectFull.Models
            ∧ saved.Triggers = sampleProjectFull.Triggers ++ [item])) :=
  installItem_returned_appends_item sampleResolver sampleDiskEmpty sampleProjectFull itTrigger
    "./trg/rest" false (by decide)


/-- C4: when the resolver has given a trigger and the trigger's own config cannot be opened,
or does not decode, or the engine config cannot be opened or does not decode, `installItem`
exits with code 2, the disk is the one from before (project descriptor and engine config
included), and neither the descriptor save nor the engine config write is made.  With the
trigger config missing the message is the `Unable to find` one. -/
theorem installItem_trigger_merger_failure_writes_nothing (R : Resolver) (disk : Disk)
    (pd : FlogoProjectDescriptor) (itemPath : String) (addToSrc : Bool)
    (itemConfig : ItemDescriptor) (itemConfigPath : String)
    (hres : R itTrigger itemPath pd.Triggers addToSrc = Except.ok (itemConfig, itemConfigPath))
    (hfail : disk.itemConfigs itemConfigPath = File.absent
      ∨ disk.itemConfigs itemConfigPath = File.corrupt
      ∨ disk.engineConfig = File.absent
      ∨ disk.engineConfig = File.corrupt) :
    (installItem R disk pd itTrigger itemPath addToSrc).status = Status.exited 2
      ∧ (installItem R disk pd itTrigger itemPath addToSrc).disk = disk
      ∧ (installItem R disk pd itTrigger itemPath addToSrc).disk.descriptor = disk.descriptor
      ∧ (installItem R disk pd itTrigger itemPath addToSrc).disk.engineConfig
          = disk.engineConfig
      ∧ savedDescriptors (installItem R disk pd itTrigger itemPath addToSrc).trace = []
      ∧ writtenEngineConfigs (installItem R disk pd itTrigger itemPath addToSrc).trace = []
      ∧ (disk.itemConfigs itemConfigPath = File.absent →
          (installItem R disk pd itTrigger itemPath addToSrc).stderr
            = ["Error: Unable to find '" ++ itemConfigPath ++ "'\n\n"]) := by
  have hfail' : (∀ tpd, disk.itemConfigs itemConfigPath ≠ File.content tpd)
      ∨ ∀ ec, disk.engineConfig ≠ File.content ec := by
    rcases hfail with h | h | h | h
    · exact Or.inl (fun tpd => by simp [h])
    · exact Or.inl (fun tpd => by simp [h])
    · exact Or.inr (fun ec => by simp [h])
    · exact Or.inr (fun ec => by simp [h])
  obtain ⟨h1, h2, _, h4, h5⟩ :=
    installItem_trigger_failed_run R disk pd itemPath addToSrc itemConfig itemConfigPath hres
      hfail'
  refine ⟨h1, h2, by rw [h2], by rw [h2], h4, h5, ?_⟩
  intro habs
  rw [installItem_trigger_resolved R disk pd itemPath addToSrc itemConfig itemConfigPath hres]
  simp [installTriggerConfig, triggerStart, Run.log, Run.exitWith, habs]

/-- C4, on the sample: installing trigger `rest` on a disk where `trigger.json` cannot be
opened. -/
theorem installItem_trigger_merger_failure_writes_nothing_witness :
    (installItem sampleResolver sampleDiskNoArtifact sampleProject itTrigger "./trg/rest"
        false).status = Status.exited 2
      ∧ (installItem sampleResolver sampleDiskNoArtifact sampleProject itTrigger "./trg/rest"
          false).disk = sampleDiskNoArtifact
      ∧ (installItem sampleResolver sampleDiskNoArtifact sampleProject itTrigger "./trg/rest"
          false).disk.descriptor = sampleDiskNoArtifact.descriptor
      ∧ (installItem sampleResolver sampleDiskNoArtifact sampleProject itTrigger "./trg/rest"
          false).disk.engineConfig = sampleDiskNoArtifact.engineConfig
      ∧ savedDescriptors (installItem sampleResolver sampleDiskNoArtifact sampleProject
          itTrigger "./trg/rest" false).trace = []
      ∧ writtenEngineConfigs (installItem sampleResolver sampleDiskNoArtifact sampleProject
          itTrigger "./trg/rest" false).trace = []
      ∧ (sampleDiskNoArtifact.itemConfigs "vendor/rest/trigger.json" = File.absent →
          (installItem sampleResolver sampleDiskNoArtifact sampleProject itTrigger "./trg/rest"
            false).stderr
            = ["Error: Unable to find '" ++ "vendor/rest/trigger.json" ++ "'\n\n"]) :=
  installItem_trigger_merger_failure_writes_nothing sampleResolver sampleDiskNoArtifact
    sampleProject "./trg/rest" false { Name := "rest", Meta := "./trg/rest" }
    "vendor/rest/trigger.json" rfl (Or.inl rfl)

/-- C5: for an item type that is none of `activity`, `model`, `trigger`, `installItem` prints
the unknown-item-type message and exits with code 2 having done nothing else: the descriptor
in memory and the disk are the ones from before, and the trace is empty, so the resolver was
not called and no file was written. -/
theorem installItem_unknown_item_type (R : Resolver) (disk : Disk)
    (pd : FlogoProjectDescriptor) (itemType itemPath : String) (addToSrc : Bool)
    (hA : itemType ≠ itActivity) (hM : itemType ≠ itModel) (hT : itemType ≠ itTrigger) :
    (installItem R disk pd itemType itemPath addToSrc).status = Status.exited 2
      ∧ (installItem R disk pd itemType itemPath addToSrc).stderr
          = ["Error: Unknown item type '" ++ itemType ++ "'\n\n"]
      ∧ (installItem R disk pd itemType itemPath addToSrc).descriptor = pd
      ∧ (installItem R disk pd itemType itemPath addToSrc).disk = disk
      ∧ (installItem R disk pd itemType itemPath addToSrc).trace = []
      ∧ resolverCalls (installItem R disk pd itemType itemPath addToSrc).trace = 0
      ∧ savedDescriptors (installItem R disk pd itemType itemPath addToSrc).trace = []
      ∧ writtenEngineConfigs (installItem R disk pd itemType itemPath addToSrc).trace = [] := by
  simp [installItem, hA, hM, hT, Run.exitWith, resolverCalls, savedDescriptors,
    writtenEngineConfigs]

/-- C5, on the sample: the item type `Trigger`, with a capital, is not known. -/
theorem installItem_unknown_item_type_witness :
    (installItem sampleResolver sampleDiskEmpty sampleProject "Trigger" "./trg/rest"
        false).status = Status.exited 2
      ∧ (installItem sampleResolver sampleDiskEmpty sampleProject "Trigger" "./trg/rest"
          false).stderr = ["Error: Unknown item type '" ++ "Trigger" ++ "'\n\n"]
      ∧ (installItem sampleResolver sampleDiskEmpty sampleProject "Trigger" "./trg/rest"
          false).descriptor = sampleProject
      ∧ (installItem sampleResolver sampleDiskEmpty sampleProject "Trigger" "./trg/rest"
          false).disk = sampleDiskEmpty
      ∧ (installItem sampleResolver sampleDiskEmpty sampleProject "Trigger" "./trg/rest"
          false).trace = []
      ∧ resolverCalls (installItem sampleResolver sampleDiskEmpty sampleProject "Trigger"
          "./trg/rest" false).trace = 0
      ∧ savedDescriptors (installItem sampleResolver sampleDiskEmpty sampleProject "Trigger"
          "./trg/rest" false).trace = []
      ∧ writtenEngineConfigs (installItem sampleResolver sampleDiskEmpty sampleProject
          "Trigger" "./trg/rest" false).trace = [] :=
  installItem_unknown_item_type sampleResolver sampleDiskEmpty sampleProject "Trigger"
    "./trg/rest" false (by decide) (by decide) (by decide)

/-- C6: with the resolver of the spec, for each of the three item types, adding an item whose
name is already in that type's list of the project descriptor ends in the resolver's
`DuplicateName` failure; the descriptor in memory and the disk (project descriptor file and
engine config file included) are the ones from before and nothing is saved or written. -/
theorem installItem_duplicate_name_rejected
    (fetch : String → String → Bool → Option (ItemDescriptor × String)) (disk : Disk)
    (pd : FlogoProjectDescriptor) (itemType itemPath : String) (addToSrc : Bool)
    (item : ItemDescriptor) (itemConfigPath : String)
    (hfetch : fetch itemType itemPath addToSrc = some (item, itemConfigPath))
    (hdup : (itemType = itActivity ∧ ∃ i ∈ pd.Activities, i.Name = item.Name)
      ∨ (itemType = itModel ∧ ∃ i ∈ pd.Models, i.Name = item.Name)
      ∨ (itemType = itTrigger ∧ ∃ i ∈ pd.Triggers, i.Name = item.Name)) :
    (installItem (AddFlogoItem fetch) disk pd itemType itemPath addToSrc).status
        = Status.resolverFailed ResolveFailure.DuplicateName
      ∧ (installItem (AddFlogoItem fetch) disk pd itemType itemPath addToSrc).descriptor = pd
      ∧ (installItem (AddFlogoItem fetch) disk pd itemType itemPath addToSrc).disk = disk
      ∧ savedDescriptors
          (installItem (AddFlogoItem fetch) disk pd itemType itemPath addToSrc).trace = []
      ∧ writtenEngineConfigs
          (installItem (AddFlogoItem fetch) disk pd itemType itemPath addToSrc).trace = [] := by
  rcases hdup with ⟨ht, i, hi, hn⟩ | ⟨ht, i, hi, hn⟩ | ⟨ht, i, hi, hn⟩
  · subst ht
    have hres : AddFlogoItem fetch itActivity itemPath pd.Activities addToSrc
        = Except.error ResolveFailure.DuplicateName := by
      have : ∃ x ∈ pd.Activities, x.Name = item.Name := ⟨i, hi, hn⟩
      simp [AddFlogoItem, hfetch, this]
    simp [installItem, hres, Run.log, savedDescriptors, writtenEngineConfigs]
  · subst ht
    have hres : AddFlogoItem fetch itModel itemPath pd.Models addToSrc
        = Except.error ResolveFailure.DuplicateName := by
      have : ∃ x ∈ pd.Models, x.Name = item.Name := ⟨i, hi, hn⟩
      simp [AddFlogoItem, hfetch, this]
    simp [installItem, hres, itModel_ne_itActivity, Run.log, savedDescriptors,
      writtenEngineConfigs]
  · subst ht
    have hres : AddFlogoItem fetch itTrigger itemPath pd.Triggers addToSrc
        = Except.error ResolveFailure.DuplicateName := by
      have : ∃ x ∈ pd.Triggers, x.Name = item.Name := ⟨i, hi, hn⟩
      simp [AddFlogoItem, hfetch, this]
    rw [installItem_trigger_unresolved (AddFlogoItem fetch) disk pd itemPath addToSrc _ hres]
    exact ⟨rfl, rfl, rfl, rfl, rfl⟩

/-- C6, on the sample: the project has a trigger `timer`; a second locator that resolves to
the name `timer` is rejected. -/
theorem installItem_duplicate_name_rejected_witness :
    (installItem (AddFlogoItem sampleFetch) sampleDiskRest sampleProjectFull itTrigger
        "./trg/timer2" false).status = Status.resolverFailed ResolveFailure.DuplicateName
      ∧ (installItem (AddFlogoItem sampleFetch) sampleDiskRest sampleProjectFull itTrigger
          "./trg/timer2" false).descriptor = sampleProjectFull
      ∧ (installItem (AddFlogoItem sampleFetch) sampleDiskRest sampleProjectFull itTrigger
          "./trg/timer2" false).disk = sampleDiskRest
      ∧ savedDescriptors (installItem (AddFlogoItem sampleFetch) sampleDiskRest
          sampleProjectFull itTrigger "./trg/timer2" false).trace = []
      ∧ writtenEngineConfigs (installItem (AddFlogoItem sampleFetch) sampleDiskRest
          sampleProjectFull itTrigger "./trg/timer2" false).trace = [] :=
  installItem_duplicate_name_rejected sampleFetch sampleDiskRest sampleProjectFull itTrigger
    "./trg/timer2" false { Name := "timer", Meta := "./trg/timer2" }
    "vendor/timer2/trigger.json" (by decide) (Or.inr (Or.inr ⟨rfl, by decide⟩))


/-- C7: after a trigger install that returns, with the resolver giving item `T`, the project
descriptor on disk has a trigger named as `T` if and only if the engine config on disk has an
entry named as `T`, and both have one. -/
theorem installItem_trigger_links_descriptor_and_engine_config (R : Resolver) (disk : Disk)
    (pd : FlogoProjectDescriptor) (itemPath : String) (addToSrc : Bool)
    (itemConfig : ItemDescriptor) (itemConfigPath : String)
    (hres : R itTrigger itemPath pd.Triggers addToSrc = Except.ok (itemConfig, itemConfigPath))
    (hok : (installItem R disk pd itTrigger itemPath addToSrc).status = Status.returned) :
    ∃ (saved : FlogoProjectDescriptor) (engine : EngineConfig),
      (installItem R disk pd itTrigger itemPath addToSrc).disk.descriptor = File.content saved
      ∧ (installItem R disk pd itTrigger itemPath addToSrc).disk.engineConfig
          = File.content engine
      ∧ savedDescriptors (installItem R disk pd itTrigger itemPath addToSrc).trace = [saved]
      ∧ ((∃ i ∈ saved.Triggers, i.Name = itemConfig.Name)
          ↔ ∃ t, some t ∈ engine.triggerList ∧ t.Name = itemConfig.Name)
      ∧ (∃ i ∈ saved.Triggers, i.Name = itemConfig.Name)
      ∧ ∃ t, some t ∈ engine.triggerList ∧ t.Name = itemConfig.Name := by
  have hsaved : ∃ i ∈ pd.Triggers ++ [itemConfig], i.Name = itemConfig.Name :=
    ⟨itemConfig, by simp, rfl⟩
  rcases configs_decode_or_not disk itemConfigPath with hfail | ⟨tpd, ec, htc, hE⟩
  · have h := (installItem_trigger_failed_run R disk pd itemPath addToSrc itemConfig
      itemConfigPath hres hfail).1
    rw [hok] at h
    cases h
  · cases hc : ContainsTriggerConfig ec.triggerList itemConfig.Name with
    | none =>
      rw [installItem_trigger_panic_run R disk pd itemPath addToSrc itemConfig itemConfigPath
        tpd ec hres htc hE hc] at hok
      cases hok
    | some b =>
      cases b with
      | true =>
        have hin := containsTriggerConfig_some_true _ _ hc
        rw [installItem_trigger_present_run R disk pd itemPath addToSrc itemConfig
          itemConfigPath tpd ec hres htc hE hc]
        exact ⟨{ pd with Triggers := pd.Triggers ++ [itemConfig] }, ec, rfl, hE, rfl,
          ⟨fun _ => hin, fun _ => hsaved⟩, hsaved, hin⟩
      | false =>
        have hnew : ∃ t, some t ∈ EngineConfig.triggerList
            { Triggers := some (ec.triggerList ++
                [some { Name := itemConfig.Name
                        Settings := copySettings tpd.Settings GoMap.empty }]) }
            ∧ t.Name = itemConfig.Name :=
          ⟨{ Name := itemConfig.Name, Settings := copySettings tpd.Settings GoMap.empty },
            by simp [EngineConfig.triggerList], rfl⟩
        rw [installItem_trigger_fresh_run R disk pd itemPath addToSrc itemConfig
          itemConfigPath tpd ec hres htc hE hc]
        exact ⟨{ pd with Triggers := pd.Triggers ++ [itemConfig] }, _, rfl, rfl, rfl,
          ⟨fun _ => hnew, fun _ => hsaved⟩, hsaved, hnew⟩

/-- C7, on the sample: trigger `rest` installed into the project with triggers `timer, mqtt`
and the engine config with the empty trigger list. -/
theorem installItem_trigger_links_descriptor_and_engine_config_witness :
    ∃ (saved : FlogoProjectDescriptor) (engine : EngineConfig),
      (installItem sampleResolver sampleDiskEmpty sampleProjectFull itTrigger "./trg/rest"
          false).disk.descriptor = File.content saved
      ∧ (installItem sampleResolver sampleDiskEmpty sampleProjectFull itTrigger "./trg/rest"
          false).disk.engineConfig = File.content engine
      ∧ savedDescriptors (installItem sampleResolver sampleDiskEmpty sampleProjectFull
          itTrigger "./trg/rest" false).trace = [saved]
      ∧ ((∃ i ∈ saved.Triggers, i.Name = "rest")
          ↔ ∃ t, some t ∈ engine.triggerList ∧ t.Name = "rest")
      ∧ (∃ i ∈ saved.Triggers, i.Name = "rest")
      ∧ ∃ t, some t ∈ engine.triggerList ∧ t.Name = "rest" :=
  installItem_trigger_links_descriptor_and_engine_config sampleResolver sampleDiskEmpty
    sampleProjectFull "./trg/rest" false { Name := "rest", Meta := "./trg/rest" }
    "vendor/rest/trigger.json" rfl (by decide)

/-- C8, as stated, fails: the engine config has the empty trigger list (names pairwise
distinct, no entry named `rest`), the resolver gives the trigger `rest`, and its
`trigger.json` cannot be opened; `installItem` exits at line 100 and the engine config after
the run is the one from before, with no entry appended although none of that name existed. -/
theorem installItem_trigger_no_artifact_appends_nothing :
    sampleDiskNoArtifact.engineConfig = File.content { Triggers := some [] }
      ∧ (entryNames (EngineConfig.triggerList { Triggers := some [] })).Nodup
      ∧ sampleResolver itTrigger "./trg/rest" sampleProject.Triggers false
          = Except.ok ({ Name := "rest", Meta := "./trg/rest" }, "vendor/rest/trigger.json")
      ∧ (¬ ∃ t, some t ∈ EngineConfig.triggerList { Triggers := some [] } ∧ t.Name = "rest")
      ∧ (installItem sampleResolver sampleDiskNoArtifact sampleProject itTrigger "./trg/rest"
          false).status = Status.exited 2
      ∧ (installItem sampleResolver sampleDiskNoArtifact sampleProject itTrigger "./trg/rest"
          false).disk.engineConfig = File.content { Triggers := some [] }
      ∧ ¬ ∃ engine entry,
          (installItem sampleResolver sampleDiskNoArtifact sampleProject itTrigger
            "./trg/rest" false).disk.engineConfig = File.content engine
          ∧ engine.triggerList
            = EngineConfig.triggerList { Triggers := some [] } ++ [entry] := by
  refine ⟨rfl, by decide, rfl, by simp [EngineConfig.triggerList], by decide, by decide, ?_⟩
  rintro ⟨engine, entry, h1, h2⟩
  have h3 : (installItem sampleResolver sampleDiskNoArtifact sampleProject itTrigger
      "./trg/rest" false).disk.engineConfig = File.content { Triggers := some [] } := by
    decide
  rw [h3] at h1
  cases h1
  simp [EngineConfig.triggerList] at h2

/-- C8, amended: a trigger install keeps the names of the engine config pairwise distinct:
when the entries of the engine config have pairwise distinct names before the run, they have
after it, however the run ends, so every name has at most one entry.  And when the resolver
gives `item`, the trigger's own config decodes and the trigger list has no `nil` entry, the
run returns and an entry was appended (the new list is the prior one followed by one entry)
if and only if no entry had the name of `item`; the appended entry is the one named as
`item` with the declared settings, and with an entry of that name the engine config is the
prior one. -/
theorem installItem_trigger_keeps_names_distinct (R : Resolver) (disk : Disk)
    (pd : FlogoProjectDescriptor) (itemPath : String) (addToSrc : Bool) (ec : EngineConfig)
    (hec : disk.engineConfig = File.content ec)
    (hnd : (entryNames ec.triggerList).Nodup) :
    (∃ engine : EngineConfig,
      (installItem R disk pd itTrigger itemPath addToSrc).disk.engineConfig
          = File.content engine
      ∧ (entryNames engine.triggerList).Nodup
      ∧ ∀ n, (entryNames engine.triggerList).count n ≤ 1)
    ∧ ∀ (item : ItemDescriptor) (itemConfigPath : String) (tpd : TriggerProjectDescriptor),
        R itTrigger itemPath pd.Triggers addToSrc = Except.ok (item, itemConfigPath) →
        disk.itemConfigs itemConfigPath = File.content tpd →
        (∀ e ∈ ec.triggerList, e ≠ none) →
        (installItem R disk pd itTrigger itemPath addToSrc).status = Status.returned
          ∧ ∃ engine : EngineConfig,
            (installItem R disk pd itTrigger itemPath addToSrc).disk.engineConfig
                = File.content engine
            ∧ ((∃ entry, engine.triggerList = ec.triggerList ++ [entry])
                ↔ ¬ ∃ t, some t ∈ ec.triggerList ∧ t.Name = item.Name)
            ∧ ((¬ ∃ t, some t ∈ ec.triggerList ∧ t.Name = item.Name) →
                engine.triggerList = ec.triggerList ++
                  [some { Name := item.Name
                          Settings := copySettings tpd.Settings GoMap.empty }])
            ∧ ((∃ t, some t ∈ ec.triggerList ∧ t.Name = item.Name) → engine = ec) := by
  have hself : ¬ ∃ entry : Option TriggerConfig,
      ec.triggerList = ec.triggerList ++ [entry] := by
    rintro ⟨entry, h⟩
    have hl := congrArg List.length h
    simp at hl
  constructor
  · cases hres : R itTrigger itemPath pd.Triggers addToSrc with
    | error e =>
      rw [installItem_trigger_unresolved R disk pd itemPath addToSrc e hres]
      exact ⟨ec, hec, hnd, List.nodup_iff_count_le_one.1 hnd⟩
    | ok p =>
      obtain ⟨itemConfig, cfgPath⟩ := p
      rcases configs_decode_or_not disk cfgPath with hfail | ⟨tpd, ec0, htc, hE⟩
      · obtain ⟨-, hdisk, -⟩ := installItem_trigger_failed_run R disk pd itemPath addToSrc
          itemConfig cfgPath hres hfail
        exact ⟨ec, by rw [hdisk]; exact hec, hnd, List.nodup_iff_count_le_one.1 hnd⟩
      · have hee : ec0 = ec := by
          rw [hE] at hec
          cases hec
          rfl
        subst hee
        cases hc : ContainsTriggerConfig ec0.triggerList itemConfig.Name with
        | none =>
          rw [installItem_trigger_panic_run R disk pd itemPath addToSrc itemConfig cfgPath tpd
            ec0 hres htc hE hc]
          exact ⟨ec0, hE, hnd, List.nodup_iff_count_le_one.1 hnd⟩
        | some b =>
          cases b with
          | true =>
            rw [installItem_trigger_present_run R disk pd itemPath addToSrc itemConfig cfgPath
              tpd ec0 hres htc hE hc]
            exact ⟨ec0, hE, hnd, List.nodup_iff_count_le_one.1 hnd⟩
          | false =>
            have hout : ¬ ∃ t, some t ∈ ec0.triggerList ∧ t.Name = itemConfig.Name := by
              rintro ⟨t, ht, hn⟩
              obtain ⟨w, hw, hne⟩ :=
                (containsTriggerConfig_some_false_iff _ _).1 hc (some t) ht
              cases hw
              exact hne hn
            have hnd2 : (entryNames (EngineConfig.triggerList
                { Triggers := some (ec0.triggerList ++
                    [some { Name := itemConfig.Name
                            Settings := copySettings tpd.Settings GoMap.empty }]) })).Nodup := by
              simp only [EngineConfig.triggerList, Option.getD_some, entryNames_append,
                entryNames]
              refine List.Nodup.append hnd (List.nodup_singleton _) ?_
              simp only [List.disjoint_singleton]
              intro hmem
              exact hout ((mem_entryNames _ _).1 hmem)
            rw [installItem_trigger_fresh_run R disk pd itemPath addToSrc itemConfig cfgPath
              tpd ec0 hres htc hE hc]
            exact ⟨_, rfl, hnd2, List.nodup_iff_count_le_one.1 hnd2⟩
  · intro item itemConfigPath tpd hres htc hnn
    by_cases hin : ∃ t, some t ∈ ec.triggerList ∧ t.Name = item.Name
    · rw [installItem_trigger_present_run R disk pd itemPath addToSrc item itemConfigPath tpd
        ec hres htc hec ((containsTriggerConfig_of_no_nil _ _ hnn).1.2 hin)]
      exact ⟨rfl, ec, hec, ⟨fun h => absurd h hself, fun h => absurd hin h⟩,
        fun h => absurd hin h, fun _ => rfl⟩
    · rw [installItem_trigger_fresh_run R disk pd itemPath addToSrc item itemConfigPath tpd
        ec hres htc hec ((containsTriggerConfig_of_no_nil _ _ hnn).2.2 hin)]
      exact ⟨rfl, _, rfl, ⟨fun _ => hin, fun _ => ⟨_, rfl⟩⟩, fun _ => rfl,
        fun h => absurd h hin⟩

/-- C8, on the sample: the engine config has the empty trigger list and `trigger.json` of
`rest` declares `port = 8080`; the install returns and the engine config after it is the
one entry `rest` with `port = 8080`, appended because no entry was named `rest`. -/
theorem installItem_trigger_keeps_names_distinct_witness :
    (installItem sampleResolver sampleDiskEmpty sampleProject itTrigger "./trg/rest"
        false).disk.engineConfig
        = File.content
            { Triggers := some [some { Name := "rest", Settings := [("port", "8080")] }] }
      ∧ (∃ engine : EngineConfig,
          (installItem sampleResolver sampleDiskEmpty sampleProject itTrigger "./trg/rest"
              false).disk.engineConfig = File.content engine
          ∧ (entryNames engine.triggerList).Nodup
          ∧ ∀ n, (entryNames engine.triggerList).count n ≤ 1)
      ∧ (installItem sampleResolver sampleDiskEmpty sampleProject itTrigger "./trg/rest"
          false).status = Status.returned
      ∧ ∃ engine : EngineConfig,
          (installItem sampleResolver sampleDiskEmpty sampleProject itTrigger "./trg/rest"
              false).disk.engineConfig = File.content engine
          ∧ ((∃ entry, engine.triggerList
                = EngineConfig.triggerList { Triggers := some [] } ++ [entry])
              ↔ ¬ ∃ t, some t ∈ EngineConfig.triggerList { Triggers := some [] }
                  ∧ t.Name = "rest")
          ∧ ((¬ ∃ t, some t ∈ EngineConfig.triggerList { Triggers := some [] }
                  ∧ t.Name = "rest") →
              engine.triggerList = EngineConfig.triggerList { Triggers := some [] } ++
                [some { Name := "rest"
                        Settings := copySettings [{ Name := "port", Value := "8080" }]
                          GoMap.empty }])
          ∧ ((∃ t, some t ∈ EngineConfig.triggerList { Triggers := some [] }
                  ∧ t.Name = "rest") →
              engine = { Triggers := some [] }) :=
  ⟨by decide,
    (installItem_trigger_keeps_names_distinct sampleResolver sampleDiskEmpty sampleProject
      "./trg/rest" false { Triggers := some [] } rfl (by decide)).1,
    (installItem_trigger_keeps_names_distinct sampleResolver sampleDiskEmpty sampleProject
      "./trg/rest" false { Triggers := some [] } rfl (by decide)).2
      { Name := "rest", Meta := "./trg/rest" } "vendor/rest/trigger.json"
      { Settings := [{ Name := "port", Value := "8080" }] } rfl (by decide)
      (by simp [EngineConfig.triggerList])⟩

/-- C9: for the item types `activity` and `model`, `installItem` leaves the engine config
alone: the engine config file and the item config artifacts on disk are the ones from before,
no event of the run opens or writes the engine config, every event is the resolver call or
the descriptor save, and when the run returns the one write is the save of the descriptor
in memory to the project descriptor file. -/
theorem installItem_activity_model_leaves_engine_config (R : Resolver) (disk : Disk)
    (pd : FlogoProjectDescriptor) (itemType itemPath : String) (addToSrc : Bool)
    (htype : itemType = itActivity ∨ itemType = itModel) :
    (installItem R disk pd itemType itemPath addToSrc).disk.engineConfig = disk.engineConfig
      ∧ (installItem R disk pd itemType itemPath addToSrc).disk.itemConfigs
          = disk.itemConfigs
      ∧ (∀ e ∈ (installItem R disk pd itemType itemPath addToSrc).trace,
          e.touchesEngineConfig = false)
      ∧ writtenEngineConfigs (installItem R disk pd itemType itemPath addToSrc).trace = []
      ∧ (∀ e ∈ (installItem R disk pd itemType itemPath addToSrc).trace,
          (∃ items, e = Event.resolve itemType itemPath items addToSrc)
            ∨ ∃ d, e = Event.saveDescriptor d)
      ∧ ((installItem R disk pd itemType itemPath addToSrc).status = Status.returned →
          savedDescriptors (installItem R disk pd itemType itemPath addToSrc).trace
              = [(installItem R disk pd itemType itemPath addToSrc).descriptor]
            ∧ (installItem R disk pd itemType itemPath addToSrc).disk.descriptor
              = File.content (installItem R disk pd itemType itemPath addToSrc).descriptor) := by
  rcases htype with ht | ht
  · subst ht
    cases hres : R itActivity itemPath pd.Activities addToSrc with
    | error e =>
      simp [installItem, hres, Run.log, Event.touchesEngineConfig, writtenEngineConfigs]
    | ok p =>
      simp [installItem, hres, Run.log, updateProjectDescriptorFiles,
        Event.touchesEngineConfig, writtenEngineConfigs, savedDescriptors]
  · subst ht
    cases hres : R itModel itemPath pd.Models addToSrc with
    | error e =>
      simp [installItem, hres, itModel_ne_itActivity, Run.log, Event.touchesEngineConfig,
        writtenEngineConfigs]
    | ok p =>
      simp [installItem, hres, itModel_ne_itActivity, Run.log, updateProjectDescriptorFiles,
        Event.touchesEngineConfig, writtenEngineConfigs, savedDescriptors]

/-- C9, on the sample: adding activity `Logger` at `./act/logger` to a project without
activities persists `Activities = [Logger]`, and the engine config is the one from before. -/
theorem installItem_activity_model_leaves_engine_config_witness :
    (installItem sampleResolver sampleDiskRest sampleProject itActivity "./act/logger"
        false).disk.descriptor
        = File.content
            { Name := "app", Activities := [{ Name := "Logger", Meta := "./act/logger" }],
              Models := [], Triggers := [] }
      ∧ (installItem sampleResolver sampleDiskRest sampleProject itActivity "./act/logger"
          false).disk.engineConfig = sampleDiskRest.engineConfig
      ∧ (installItem sampleResolver sampleDiskRest sampleProject itActivity "./act/logger"
          false).disk.itemConfigs = sampleDiskRest.itemConfigs
      ∧ (∀ e ∈ (installItem sampleResolver sampleDiskRest sampleProject itActivity
            "./act/logger" false).trace, e.touchesEngineConfig = false)
      ∧ writtenEngineConfigs (installItem sampleResolver sampleDiskRest sampleProject
          itActivity "./act/logger" false).trace = []
      ∧ (∀ e ∈ (installItem sampleResolver sampleDiskRest sampleProject itActivity
            "./act/logger" false).trace,
          (∃ items, e = Event.resolve itActivity "./act/logger" items false)
            ∨ ∃ d, e = Event.saveDescriptor d)
      ∧ ((installItem sampleResolver sampleDiskRest sampleProject itActivity "./act/logger"
            false).status = Status.returned →
          savedDescriptors (installItem sampleResolver sampleDiskRest sampleProject itActivity
              "./act/logger" false).trace
              = [(installItem sampleResolver sampleDiskRest sampleProject itActivity
                  "./act/logger" false).descriptor]
            ∧ (installItem sampleResolver sampleDiskRest sampleProject itActivity
                "./act/logger" false).disk.descriptor
              = File.content (installItem sampleResolver sampleDiskRest sampleProject
                  itActivity "./act/logger" false).descriptor) :=
  ⟨by decide,
    installItem_activity_model_leaves_engine_config sampleResolver sampleDiskRest sampleProject
      itActivity "./act/logger" false (Or.inl rfl)⟩

end Flogo
